import Mathlib

/-!
Verification of the Knock-Knock IP allow-list manager.

Shallow embedding of the Python source:
- `src/app.py` : duration parser (`get_expiration_delta`), the grant route
  (`index`), `revoke`, `extend`, and the sweeper (`cleanup_expired_ips`).
- `src/routers/unifi.py` : the Unifi router client (`login`,
  `ensure_authenticated`, `add_ip`, `remove_ip`).

Modelling conventions:
- Instants (datetime values) are abstract integers; `expiration` is
  `Option Int` where `none` is SQL NULL ("forever").  SQLite's
  `expiration < ?` predicate is false on NULL rows, which the model
  reflects by `isExpired` returning `false` on `none`.
- Network calls are parametrised by an outcome value (`AddOutcome`,
  `RemoveOutcome`, the `fail` flag of `login`) standing for whether the
  underlying HTTP call raises `requests.RequestException`.
- A Python exception escaping a function is `Except.error ()`; the grant /
  extend routes record a crash as an explicit result constructor since
  Flask turns the escaped exception into a 500 response.
- In `add_ip`, the source line `return none, False` references the
  undefined name `none` (Python is case-sensitive), so both of its
  failure branches actually raise `NameError`; they are therefore
  modelled as raising, not as returning a pair.
- The clock is read several times during one sweep cycle
  (`datetime.now()` at the SELECT and at each DELETE); the model takes a
  single instant `now` for the whole cycle, i.e. executions in which the
  clock does not tick mid-cycle.
-/

/-- One row of the `access_requests` table
(`id` autoincrement is irrelevant to the claims and omitted). -/
structure Entry where
  email : String
  ip : String
  expiration : Option Int
deriving DecidableEq, Repr

/-- Combined observable state: the SQLite store, the router's firewall-group
membership list, and the log of error messages emitted so far. -/
structure S where
  store : List Entry
  router : List String
  log : List String
deriving DecidableEq, Repr

/-- SQLite predicate `expiration < ?` : NULL compares false. -/
def isExpired (now : Int) (e : Entry) : Bool :=
  match e.expiration with
  | some t => decide (t < now)
  | none => false

/-- `SELECT ip FROM access_requests WHERE expiration < now` -/
def expiredIps (store : List Entry) (now : Int) : List String :=
  (store.filter (isExpired now)).map Entry.ip

/-! ## Duration parser (`get_expiration_delta`, app.py:129-149)

Durations are measured in seconds.  Python's `re.match r"(\d+)([hdwmy])"`
anchors at the start only: it succeeds exactly when the string begins with
one or more digits whose maximal run is immediately followed by one of the
five unit letters (a unit letter is never a digit, so no backtracking can
produce a different split). -/

/-- Splits off the maximal leading run of decimal digits. -/
def splitDigits : List Char → List Char × List Char
  | [] => ([], [])
  | c :: cs =>
    if c.isDigit then
      (c :: (splitDigits cs).1, (splitDigits cs).2)
    else ([], c :: cs)

/-- Value of a decimal digit string, as Python's `int` computes it. -/
def digitsToNat (ds : List Char) : Nat :=
  ds.foldl (fun acc c => 10 * acc + (c.toNat - 48)) 0

/-- The `mapping` table of `get_expiration_delta`, in seconds per unit. -/
def unitSeconds : Char → Option Int
  | 'h' => some 3600
  | 'd' => some 86400
  | 'w' => some 604800
  | 'm' => some (30 * 86400)
  | 'y' => some (365 * 86400)
  | _ => none

/-- `get_expiration_delta` (app.py:129-149): `none` is the forever marker
(the Python function returns `None` for the token `"0f"`), `some d` a
timedelta of `d` seconds. -/
def get_expiration_delta (duration : String) : Option Int :=
  if duration = "0f" then none
  else
    match splitDigits duration.data with
    | ([], _) => some 86400
    | (ds, rest) =>
      match rest with
      | [] => some 86400
      | u :: _ =>
        match unitSeconds u with
        | some s => some (digitsToNat ds * s)
        | none => some 86400

/-- True when the string begins with digits followed by a valid unit
letter, i.e. exactly when the source regex `(\d+)([hdwmy])` matches. -/
def wellFormedToken (s : String) : Bool :=
  match splitDigits s.data with
  | ([], _) => false
  | (_, rest) =>
    match rest with
    | [] => false
    | u :: _ => (unitSeconds u).isSome

/-! ## Unifi router client (`src/routers/unifi.py`) -/

/-- Outcome of the HTTP calls made inside `UnifiClient.add_ip`:
`getFail` : the group fetch raises; `putFail` : the membership PUT raises;
`ok` : all calls succeed. -/
inductive AddOutcome
  | getFail
  | putFail
  | ok
deriving DecidableEq, Repr

/-- Outcome of the HTTP calls made inside `UnifiClient.remove_ip`. -/
inductive RemoveOutcome
  | getFail
  | putFail
  | ok
deriving DecidableEq, Repr

/-- Log line written by `remove_ip` when its PUT raises (unifi.py:160):
`logger.error("Failed to remove IP from group: %s", e)`.  The formatted
value is the caught exception, not the member address, so this line does
NOT name the address being removed; the model renders the exception text
as a fixed placeholder. -/
def putFailMsg : String :=
  "Failed to remove IP from group: <RequestException>"

/-- Line printed by `cleanup_expired_ips` when `remove_ip` raises
(app.py:223): `print(f"Failed to remove IP {ip}: {e}")` — unlike the
client's PUT-failure line, this one does name the address; the exception
text is rendered as a fixed placeholder. -/
def sweepErrMsg (ip : String) : String :=
  "Failed to remove IP " ++ ip ++ ": <exception>"

/-- `UnifiClient.add_ip` (unifi.py:86-131).  Returns the updated group
membership and the `was_added` flag on success.  Both failure branches hit
`return none, False` where `none` is an undefined Python name, so they
raise `NameError`, modelled as `Except.error ()`.  The success response is
the mock / PUT response with status 200. -/
def add_ip (o : AddOutcome) (router : List String) (ip : String) :
    Except Unit (List String × Bool) :=
  match o with
  | .getFail => .error ()
  | .putFail =>
    if ip ∈ router then .ok (router, false) else .error ()
  | .ok =>
    if ip ∈ router then .ok (router, false)
    else .ok (router ++ [ip], true)

/-- `UnifiClient.remove_ip` (unifi.py:133-160).  A fetch failure is logged
and then the unbound `response` raises (modelled `Except.error ()`); a PUT
failure is caught, logged and swallowed — the function returns normally
with the membership unchanged.  On success every occurrence of `ip` is
filtered out of the group.  The returned pair is the resulting membership
and the log lines the call emitted. -/
def remove_ip (o : RemoveOutcome) (router : List String) (ip : String) :
    Except Unit (List String × List String) :=
  match o with
  | .getFail => .error ()
  | .putFail => .ok (router, [putFailMsg])
  | .ok => .ok (router.filter (fun i => i != ip), [])

/-- Token state of `UnifiClient` (`csrf_token`, `token_expiry`). -/
structure ClientState where
  csrf_token : Option String
  token_expiry : Option Int
deriving DecidableEq, Repr

/-- `UnifiClient.login` (unifi.py:46-74).  `fail = true` means the POST (or
its `raise_for_status`) raised `requests.RequestException`: the exception
is caught, logged, and the method returns with the state untouched — no
error value reaches the caller.  On success the decoded JWT fields
`newCsrf`, `newExp` replace the stored token state. -/
def login (fail : Bool) (newCsrf : String) (newExp : Int)
    (st : ClientState) : Except Unit ClientState :=
  if fail then .ok st
  else .ok { csrf_token := some newCsrf, token_expiry := some newExp }

/-- `UnifiClient.ensure_authenticated` (unifi.py:76-84): re-login when
there is no stored expiry or it is within 30 seconds of `now`. -/
def ensure_authenticated (fail : Bool) (newCsrf : String) (newExp : Int)
    (now : Int) (st : ClientState) : Except Unit ClientState :=
  match st.token_expiry with
  | none => login fail newCsrf newExp st
  | some exp =>
    if exp - 30 < now then login fail newCsrf newExp st
    else .ok st

/-! ## Lifecycle operations (routes in `src/app.py`) -/

/-- Observable ending of the grant route (`index`, app.py:349-388) on a
validated form: row inserted (`granted`), router already had the address
(`already_present`), or `add_ip` raised `NameError` and Flask answered
with a 500 (`crashed`).  The `else` branch flashing "Failed to add IP" is
unreachable in the source because both failure paths of `add_ip` raise. -/
inductive GrantResult
  | granted
  | already_present
  | crashed
deriving DecidableEq, Repr

/-- The grant path of `index` (app.py:362-385): expiration is computed
from the duration token before the router call; the row is inserted only
when the router reports `was_added`. -/
def grant (o : AddOutcome) (email ip duration : String) (now : Int)
    (s : S) : S × GrantResult :=
  let expiration := (get_expiration_delta duration).map (fun d => now + d)
  match add_ip o s.router ip with
  | .error _ => (s, .crashed)
  | .ok (router', wasAdded) =>
    if wasAdded then
      ({ s with router := router',
                store := s.store ++
                  [{ email := email, ip := ip, expiration := expiration }] },
       .granted)
    else (s, .already_present)

/-- Result space of the revoke route; `not_found` is the outcome the spec
describes for a missing row (the source never produces it). -/
inductive RevokeResult
  | revoked
  | not_found
deriving DecidableEq, Repr

/-- `revoke` (app.py:300-315) on a validated form: unconditionally
`DELETE FROM access_requests WHERE ip = ?` and flash the revoked
message — there is no row-count check. -/
def revoke (ip : String) (s : S) : S × RevokeResult :=
  ({ s with store := s.store.filter (fun e => e.ip != ip) }, .revoked)

/-- Observable ending of the extend route: `extended` (update committed and
success flashed), `silent` (no row found: no update, no flash), `crashed`
(`datetime.fromisoformat(None)` raised `TypeError`, Flask answered 500). -/
inductive ExtendResult
  | extended
  | silent
  | crashed
deriving DecidableEq, Repr

/-- `UPDATE access_requests SET expiration = ? WHERE ip = ?` -/
def setExpiration (store : List Entry) (ip : String) (exp : Option Int) :
    List Entry :=
  store.map (fun e => if e.ip == ip then { e with expiration := exp } else e)

/-- `extend` (app.py:317-345) on a validated form.  `fetchone` reads the
first row matching the ip; with a non-forever delta the stored expiration
is parsed with `datetime.fromisoformat`, which raises `TypeError` when the
column is NULL (a forever-entry); otherwise the new expiration (NULL for
the forever token, current + delta for a timed one) is written to every
row with that ip. -/
def extend (ip duration : String) (s : S) : S × ExtendResult :=
  let delta := get_expiration_delta duration
  match s.store.find? (fun e => e.ip == ip) with
  | none => (s, .silent)
  | some row =>
    match delta with
    | none =>
      ({ s with store := setExpiration s.store ip none }, .extended)
    | some d =>
      match row.expiration with
      | none => (s, .crashed)
      | some t =>
        ({ s with store := setExpiration s.store ip (some (t + d)) },
         .extended)

/-! ## Expiry sweeper (`cleanup_expired_ips`, app.py:207-226) -/

/-- One iteration of the sweeper loop for one expired ip: call
`remove_ip`; if it raises, print the failure and continue; if it returns
(success or swallowed PUT failure) re-delete every row whose expiration is
before `now`. -/
def sweepStep (oc : String → RemoveOutcome) (now : Int) (s : S)
    (ip : String) : S :=
  match remove_ip (oc ip) s.router ip with
  | .error _ => { s with log := s.log ++ [sweepErrMsg ip] }
  | .ok (router', msgs) =>
    { store := s.store.filter (fun e => !isExpired now e),
      router := router',
      log := s.log ++ msgs }

/-- `cleanup_expired_ips` (app.py:207-226): select the expired ips, and if
there are any, walk them with `sweepStep` (the `ensure_authenticated`
call touches only the client token state, which is not part of `S`). -/
def cleanup_expired_ips (oc : String → RemoveOutcome) (now : Int)
    (s : S) : S :=
  if (expiredIps s.store now).isEmpty then s
  else (expiredIps s.store now).foldl (sweepStep oc now) s

/-! ## System traces

The operations above are serialised (spec section 5: single process,
single active writer); a trace is a list of operations applied from an
initial state with an empty store, an arbitrary pre-existing router
group, and an empty log. -/

/-- One serialised operation of the system. -/
inductive Op where
  | grant (o : AddOutcome) (email ip duration : String) (now : Int)
  | revoke (ip : String)
  | extend (ip duration : String)
  | sweep (oc : String → RemoveOutcome) (now : Int)

/-- State transition of one operation (the route results are dropped). -/
def stepOp (s : S) : Op → S
  | .grant o email ip duration now => (grant o email ip duration now s).1
  | .revoke ip => (revoke ip s).1
  | .extend ip duration => (extend ip duration s).1
  | .sweep oc now => cleanup_expired_ips oc now s

/-- State after running a trace from an empty store and log over the
initial router membership `r0`. -/
def run (r0 : List String) (ops : List Op) : S :=
  ops.foldl stepOp { store := [], router := r0, log := [] }

/-- Rows never share an address. -/
def NoDupIps (l : List Entry) : Prop :=
  l.Pairwise (fun a b => a.ip ≠ b.ip)

/-- Every stored row's address is present in the router group. -/
def StoreInRouter (s : S) : Prop :=
  ∀ e ∈ s.store, e.ip ∈ s.router

/-- The system invariant maintained by every operation. -/
def SysInv (s : S) : Prop :=
  NoDupIps s.store ∧ StoreInRouter s

/-! ## Concrete fixtures used by counterexamples and witnesses -/

/-- Two rows, both expired at instant 1, both present in the router. -/
def sC1 : S :=
  { store := [{ email := "u", ip := "10.0.0.1", expiration := some 0 },
              { email := "u", ip := "10.0.0.2", expiration := some 0 }],
    router := ["10.0.0.1", "10.0.0.2"],
    log := [] }

/-- Removal of the second address raises; every other removal succeeds. -/
def ocC1 : String → RemoveOutcome :=
  fun ip => if ip = "10.0.0.2" then .getFail else .ok

/-- Every removal succeeds. -/
def ocOk : String → RemoveOutcome := fun _ => .ok

/-- One expired row present in the router. -/
def sC1w : S :=
  { store := [{ email := "u", ip := "9.9.9.9", expiration := some 0 }],
    router := ["9.9.9.9"],
    log := [] }

/-- A single forever-entry. -/
def sC3 : S :=
  { store := [{ email := "u", ip := "10.0.0.3", expiration := none }],
    router := [],
    log := [] }

/-- One unrelated row, used to observe that a failed grant persists
nothing. -/
def sC4 : S :=
  { store := [{ email := "x", ip := "10.0.0.4", expiration := some 50 }],
    router := ["10.0.0.4"],
    log := [] }

/-- A forever row, a row expired at instant 10, and a future row. -/
def sC6 : S :=
  { store := [{ email := "u", ip := "7.7.7.7", expiration := none },
              { email := "u", ip := "8.8.8.8", expiration := some 5 },
              { email := "u", ip := "6.6.6.6", expiration := some 99 }],
    router := ["7.7.7.7", "8.8.8.8", "6.6.6.6"],
    log := [] }

/-- A store holding only an address different from the one revoked. -/
def sC8 : S :=
  { store := [{ email := "u", ip := "10.0.0.2", expiration := some 5 }],
    router := ["10.0.0.2"],
    log := [] }

/-- Another store with no row for the revoked address. -/
def sC8w : S :=
  { store := [{ email := "v", ip := "10.9.9.9", expiration := none }],
    router := ["10.9.9.9"],
    log := [] }

/-- A client holding a previously obtained token. -/
def stC9 : ClientState :=
  { csrf_token := some "oldtoken", token_expiry := some 50 }

/-- A single timed entry. -/
def sC10 : S :=
  { store := [{ email := "u", ip := "10.0.0.5", expiration := some 77 }],
    router := ["10.0.0.5"],
    log := [] }

/-! ## Helper lemmas about the sweeper's fold -/

theorem filter_self_idem {α : Type} (p : α → Bool) (l : List α) :
    (l.filter p).filter p = l.filter p := by
  induction l with
  | nil => rfl
  | cons a l ih =>
    by_cases h : p a = true <;> simp [List.filter_cons, h, ih]

theorem sweepStep_store (oc : String → RemoveOutcome) (now : Int) (s : S)
    (ip : String) :
    (sweepStep oc now s ip).store = s.store ∨
    (sweepStep oc now s ip).store =
      s.store.filter (fun e => !isExpired now e) := by
  cases h : oc ip <;> simp [sweepStep, remove_ip, h]

theorem sweepGo_store (oc : String → RemoveOutcome) (now : Int) :
    ∀ (l : List String) (s : S),
      (l.foldl (sweepStep oc now) s).store = s.store ∨
      (l.foldl (sweepStep oc now) s).store =
        s.store.filter (fun e => !isExpired now e) := by
  intro l
  induction l with
  | nil => intro s; exact Or.inl rfl
  | cons ip l ih =>
    intro s
    rw [List.foldl_cons]
    rcases sweepStep_store oc now s ip with h | h
    · rcases ih (sweepStep oc now s ip) with h2 | h2
      · exact Or.inl (h2.trans h)
      · exact Or.inr (by rw [h2, h])
    · rcases ih (sweepStep oc now s ip) with h2 | h2
      · exact Or.inr (h2.trans h)
      · right
        rw [h2, h]
        exact filter_self_idem _ _


theorem sweepGo_store_sublist (oc : String → RemoveOutcome) (now : Int) :
    ∀ (l : List String) (s : S),
      List.Sublist (l.foldl (sweepStep oc now) s).store s.store := by
  intro l
  induction l with
  | nil => intro s; exact List.Sublist.refl _
  | cons ip l ih =>
    intro s
    rw [List.foldl_cons]
    refine (ih (sweepStep oc now s ip)).trans ?_
    rcases sweepStep_store oc now s ip with h | h
    · rw [h]
    · rw [h]; exact List.filter_sublist _

theorem sweepStep_router_mem (oc : String → RemoveOutcome) (now : Int)
    (s : S) (ip x : String) :
    x ∈ (sweepStep oc now s ip).router ↔
      x ∈ s.router ∧ (oc ip = RemoveOutcome.ok → x ≠ ip) := by
  cases h : oc ip <;>
    simp [sweepStep, remove_ip, h, List.mem_filter]

theorem sweepGo_router_mem (oc : String → RemoveOutcome) (now : Int)
    (x : String) :
    ∀ (l : List String) (s : S),
      x ∈ (l.foldl (sweepStep oc now) s).router ↔
        x ∈ s.router ∧
          ∀ ip ∈ l, oc ip = RemoveOutcome.ok → x ≠ ip := by
  intro l
  induction l with
  | nil => intro s; simp
  | cons ip l ih =>
    intro s
    rw [List.foldl_cons, ih, sweepStep_router_mem]
    simp only [List.forall_mem_cons]
    tauto

theorem sweepStep_log_mono (oc : String → RemoveOutcome) (now : Int)
    (s : S) (ip m : String) (h : m ∈ s.log) :
    m ∈ (sweepStep oc now s ip).log := by
  cases ho : oc ip <;>
    simp [sweepStep, remove_ip, ho, List.mem_append, h]

theorem sweepGo_log_mono (oc : String → RemoveOutcome) (now : Int)
    (m : String) :
    ∀ (l : List String) (s : S), m ∈ s.log →
      m ∈ (l.foldl (sweepStep oc now) s).log := by
  intro l
  induction l with
  | nil => intro s h; exact h
  | cons ip l ih =>
    intro s h
    rw [List.foldl_cons]
    exact ih _ (sweepStep_log_mono oc now s ip m h)

theorem sweepGo_emit_getFail (oc : String → RemoveOutcome) (now : Int) :
    ∀ (l : List String) (s : S) (ip : String), ip ∈ l →
      oc ip = RemoveOutcome.getFail →
      sweepErrMsg ip ∈ (l.foldl (sweepStep oc now) s).log := by
  intro l
  induction l with
  | nil => intro s ip h; exact absurd h (List.not_mem_nil ip)
  | cons ip' l ih =>
    intro s ip hm ho
    rw [List.foldl_cons]
    rcases List.mem_cons.mp hm with rfl | hm
    · apply sweepGo_log_mono
      simp [sweepStep, remove_ip, ho, List.mem_append]
    · exact ih _ ip hm ho

theorem sweepGo_emit_putFail (oc : String → RemoveOutcome) (now : Int) :
    ∀ (l : List String) (s : S) (ip : String), ip ∈ l →
      oc ip = RemoveOutcome.putFail →
      putFailMsg ∈ (l.foldl (sweepStep oc now) s).log := by
  intro l
  induction l with
  | nil => intro s ip h; exact absurd h (List.not_mem_nil ip)
  | cons ip' l ih =>
    intro s ip hm ho
    rw [List.foldl_cons]
    rcases List.mem_cons.mp hm with rfl | hm
    · apply sweepGo_log_mono
      simp [sweepStep, remove_ip, ho, List.mem_append]
    · exact ih _ ip hm ho

/-! ## Cleanup-level lemmas -/

theorem cleanup_store_cases (oc : String → RemoveOutcome) (now : Int)
    (s : S) :
    (cleanup_expired_ips oc now s).store = s.store ∨
    (cleanup_expired_ips oc now s).store =
      s.store.filter (fun e => !isExpired now e) := by
  unfold cleanup_expired_ips
  by_cases h : (expiredIps s.store now).isEmpty = true
  · rw [if_pos h]
    exact Or.inl rfl
  · rw [if_neg h]
    exact sweepGo_store oc now _ s

theorem cleanup_keeps_forever (oc : String → RemoveOutcome) (now : Int)
    (s : S) (e : Entry) (he : e ∈ s.store) (hf : e.expiration = none) :
    e ∈ (cleanup_expired_ips oc now s).store := by
  rcases cleanup_store_cases oc now s with h | h <;> rw [h]
  · exact he
  · exact List.mem_filter.mpr ⟨he, by simp [isExpired, hf]⟩

theorem cleanup_deleted_expired (oc : String → RemoveOutcome) (now : Int)
    (s : S) (e : Entry) (he : e ∈ s.store)
    (hd : e ∉ (cleanup_expired_ips oc now s).store) :
    ∃ t, e.expiration = some t ∧ t < now := by
  rcases cleanup_store_cases oc now s with h | h
  · rw [h] at hd; exact absurd he hd
  · rw [h] at hd
    by_cases hex : isExpired now e = true
    · unfold isExpired at hex
      cases hexp : e.expiration with
      | none => rw [hexp] at hex; simp at hex
      | some t =>
        rw [hexp] at hex
        exact ⟨t, rfl, by simpa using hex⟩
    · exact absurd (List.mem_filter.mpr ⟨he, by simp [hex]⟩) hd

theorem expired_mem_expiredIps (s : S) (now : Int) (e : Entry)
    (he : e ∈ s.store) (hex : isExpired now e = true) :
    e.ip ∈ expiredIps s.store now :=
  List.mem_map.mpr ⟨e, List.mem_filter.mpr ⟨he, hex⟩, rfl⟩

theorem cleanup_eq_foldl_of_mem (oc : String → RemoveOutcome) (now : Int)
    (s : S) (x : String) (hx : x ∈ expiredIps s.store now) :
    cleanup_expired_ips oc now s =
      (expiredIps s.store now).foldl (sweepStep oc now) s := by
  unfold cleanup_expired_ips
  have hne : ¬ (expiredIps s.store now).isEmpty = true := by
    cases h : expiredIps s.store now with
    | nil => rw [h] at hx; exact absurd hx (List.not_mem_nil x)
    | cons a l => simp [h]
  rw [if_neg hne]

/-! ## Invariant preservation -/

theorem setExpiration_ip_eq (ip : String) (exp : Option Int) (e : Entry) :
    (if e.ip == ip then { e with expiration := exp } else e).ip = e.ip := by
  cases h : e.ip == ip <;> simp [h]

theorem setExpiration_nodup (store : List Entry) (ip : String)
    (exp : Option Int) (h : NoDupIps store) :
    NoDupIps (setExpiration store ip exp) := by
  unfold NoDupIps setExpiration
  rw [List.pairwise_map]
  refine h.imp ?_
  intro a b hab
  rw [setExpiration_ip_eq, setExpiration_ip_eq]
  exact hab

theorem setExpiration_mem (store : List Entry) (ip : String)
    (exp : Option Int) (e' : Entry) (h : e' ∈ setExpiration store ip exp) :
    ∃ e ∈ store, e'.ip = e.ip := by
  unfold setExpiration at h
  obtain ⟨a, ha, rfl⟩ := List.mem_map.mp h
  exact ⟨a, ha, setExpiration_ip_eq ip exp a⟩

theorem setExpiration_ip_val (store : List Entry) (ip : String)
    (exp : Option Int) :
    ∀ e ∈ setExpiration store ip exp, e.ip = ip → e.expiration = exp := by
  intro e he hip
  unfold setExpiration at he
  obtain ⟨a, ha, rfl⟩ := List.mem_map.mp he
  cases h : a.ip == ip with
  | true => simp [h]
  | false =>
    simp only [h, Bool.false_eq_true, if_false] at hip
    exact absurd hip (by simpa using h)

theorem grant_preserves_inv (o : AddOutcome) (email ip duration : String)
    (now : Int) (s : S) (h : SysInv s) :
    SysInv (grant o email ip duration now s).1 := by
  obtain ⟨hnd, hsr⟩ := h
  unfold grant
  cases o with
  | getFail => exact ⟨hnd, hsr⟩
  | putFail =>
    by_cases hm : ip ∈ s.router <;> simp only [add_ip, hm, if_pos, if_neg]
    · exact ⟨hnd, hsr⟩
    · exact ⟨hnd, hsr⟩
  | ok =>
    by_cases hm : ip ∈ s.router
    · simp only [add_ip, hm, if_pos]
      exact ⟨hnd, hsr⟩
    · simp [add_ip, hm]
      constructor
      · unfold NoDupIps
        rw [List.pairwise_append]
        refine ⟨hnd, List.pairwise_singleton _ _, ?_⟩
        intro a ha b hb
        rw [List.mem_singleton] at hb
        subst hb
        intro hEq
        simp only at hEq
        exact hm (hEq ▸ hsr a ha)
      · intro e he
        rcases List.mem_append.mp he with h1 | h1
        · exact List.mem_append_left _ (hsr e h1)
        · rw [List.mem_singleton] at h1
          subst h1
          exact List.mem_append_right _ (List.mem_singleton_self ip)

theorem revoke_preserves_inv (ip : String) (s : S) (h : SysInv s) :
    SysInv (revoke ip s).1 := by
  obtain ⟨hnd, hsr⟩ := h
  refine ⟨List.Pairwise.sublist (List.filter_sublist _) hnd, ?_⟩
  intro e he
  exact hsr e (List.mem_of_mem_filter he)

theorem extend_preserves_inv (ip duration : String) (s : S) (h : SysInv s) :
    SysInv (extend ip duration s).1 := by
  obtain ⟨hnd, hsr⟩ := h
  have hset : ∀ exp, SysInv { s with store := setExpiration s.store ip exp } := by
    intro exp
    refine ⟨setExpiration_nodup s.store ip exp hnd, ?_⟩
    intro e he
    obtain ⟨a, ha, hip⟩ := setExpiration_mem s.store ip exp e he
    rw [hip]
    exact hsr a ha
  cases hf : s.store.find? (fun e => e.ip == ip) with
  | none => simp only [extend, hf]; exact ⟨hnd, hsr⟩
  | some row =>
    cases hd : get_expiration_delta duration with
    | none => simp only [extend, hf, hd]; exact hset none
    | some d =>
      cases hexp : row.expiration with
      | none => simp only [extend, hf, hd, hexp]; exact ⟨hnd, hsr⟩
      | some t => simp only [extend, hf, hd, hexp]; exact hset (some (t + d))

theorem sweepGo_inv (oc : String → RemoveOutcome) (now : Int) (s0 : S)
    (hnd : NoDupIps s0.store) :
    ∀ (l : List String) (s : S),
      (∀ ip ∈ l, ∃ r ∈ s0.store, isExpired now r = true ∧ r.ip = ip) →
      List.Sublist s.store s0.store →
      (∀ e ∈ s.store, e.ip ∈ s.router) →
      ∀ e ∈ (l.foldl (sweepStep oc now) s).store,
        e.ip ∈ (l.foldl (sweepStep oc now) s).router := by
  intro l
  induction l with
  | nil => intro s _ _ hsr; simpa using hsr
  | cons ip l ih =>
    intro s hl hsub hsr
    rw [List.foldl_cons]
    apply ih
    · intro ip' h'
      exact hl ip' (List.mem_cons_of_mem _ h')
    · rcases sweepStep_store oc now s ip with h | h
      · rw [h]; exact hsub
      · rw [h]; exact (List.filter_sublist _).trans hsub
    · intro e he
      cases ho : oc ip with
      | getFail =>
        have hs : sweepStep oc now s ip =
            { s with log := s.log ++ [sweepErrMsg ip] } := by
          simp [sweepStep, remove_ip, ho]
        rw [hs] at he ⊢
        exact hsr e he
      | putFail =>
        have hs : sweepStep oc now s ip =
            { store := s.store.filter (fun e => !isExpired now e),
              router := s.router,
              log := s.log ++ [putFailMsg] } := by
          simp [sweepStep, remove_ip, ho]
        rw [hs] at he ⊢
        exact hsr e (List.mem_of_mem_filter he)
      | ok =>
        have hs : sweepStep oc now s ip =
            { store := s.store.filter (fun e => !isExpired now e),
              router := s.router.filter (fun i => i != ip),
              log := s.log } := by
          simp [sweepStep, remove_ip, ho]
        rw [hs] at he ⊢
        have heS : e ∈ s.store := List.mem_of_mem_filter he
        have hneb : isExpired now e = false := by
          have := (List.mem_filter.mp he).2
          simpa using this
        obtain ⟨r, hr, hrex, hrip⟩ := hl ip (List.mem_cons_self ip l)
        have hneq : e.ip ≠ ip := by
          intro hEq
          have heS0 : e ∈ s0.store := hsub.subset heS
          have hner : e ≠ r := by
            intro hER
            rw [hER] at hneb
            rw [hneb] at hrex
            cases hrex
          have hsym : Symmetric (fun a b : Entry => a.ip ≠ b.ip) :=
            fun a b hab => hab.symm  -- hmm Ne.symm
          have := List.Pairwise.forall hsym hnd heS0 hr hner
          exact this (hEq.trans hrip.symm)
        refine List.mem_filter.mpr ⟨hsr e heS, ?_⟩
        simpa using hneq

theorem cleanup_preserves_inv (oc : String → RemoveOutcome) (now : Int)
    (s : S) (h : SysInv s) : SysInv (cleanup_expired_ips oc now s) := by
  obtain ⟨hnd, hsr⟩ := h
  constructor
  · rcases cleanup_store_cases oc now s with hc | hc
    · unfold NoDupIps
      rw [hc]
      exact hnd
    · unfold NoDupIps
      rw [hc]
      exact List.Pairwise.sublist (List.filter_sublist _) hnd
  · intro e he
    unfold cleanup_expired_ips at he ⊢
    by_cases hemp : (expiredIps s.store now).isEmpty = true
    · rw [if_pos hemp] at he ⊢
      exact hsr e he
    · rw [if_neg hemp] at he ⊢
      refine sweepGo_inv oc now s hnd (expiredIps s.store now) s ?_
        (List.Sublist.refl _) hsr e he
      intro ip hip
      obtain ⟨r, hr, hrip⟩ := List.mem_map.mp hip
      exact ⟨r, List.mem_of_mem_filter hr, (List.mem_filter.mp hr).2, hrip⟩

theorem stepOp_preserves_inv (s : S) (op : Op) (h : SysInv s) :
    SysInv (stepOp s op) := by
  cases op with
  | grant o email ip duration now =>
    exact grant_preserves_inv o email ip duration now s h
  | revoke ip => exact revoke_preserves_inv ip s h
  | extend ip duration => exact extend_preserves_inv ip duration s h
  | sweep oc now => exact cleanup_preserves_inv oc now s h

theorem foldl_stepOp_inv (ops : List Op) :
    ∀ (s : S), SysInv s → SysInv (ops.foldl stepOp s) := by
  induction ops with
  | nil => intro s h; exact h
  | cons op ops ih =>
    intro s h
    rw [List.foldl_cons]
    exact ih _ (stepOp_preserves_inv s op h)

theorem run_inv (r0 : List String) (ops : List Op) : SysInv (run r0 ops) := by
  unfold run
  refine foldl_stepOp_inv ops _ ⟨List.Pairwise.nil, ?_⟩
  intro e he
  exact absurd he (List.not_mem_nil e)

/-! ## Duration parser lemmas -/

theorem splitDigits_append (ds : List Char) (u : Char) (rest : List Char)
    (hds : ∀ c ∈ ds, c.isDigit = true) (hu : u.isDigit = false) :
    splitDigits (ds ++ u :: rest) = (ds, u :: rest) := by
  induction ds with
  | nil => simp [splitDigits, hu]
  | cons c ds' ih =>
    have hc : c.isDigit = true := hds c (List.mem_cons_self c ds')
    have ih' := ih (fun c' hc' => hds c' (List.mem_cons_of_mem c hc'))
    simp [splitDigits, hc, ih']

theorem mk_append_ne_0f (ds : List Char) (u : Char) (rest : List Char)
    (hne : ds ≠ []) (huf : u ≠ 'f') :
    String.mk (ds ++ u :: rest) ≠ "0f" := by
  intro h
  have hl : ds ++ u :: rest = ['0', 'f'] := by
    have hdata := congrArg String.data h
    simpa using hdata
  cases ds with
  | nil => exact hne rfl
  | cons c ds' =>
    cases ds' with
    | nil =>
      simp only [List.cons_append, List.nil_append] at hl
      injection hl with h1 h2
      injection h2 with h3 h4
      exact huf h3
    | cons c2 ds'' =>
      have hlen := congrArg List.length hl
      simp only [List.length_append, List.length_cons, List.length_nil]
        at hlen
      omega

theorem delta_valid_prefix (ds : List Char) (u : Char) (rest : List Char)
    (hne : ds ≠ []) (hds : ∀ c ∈ ds, c.isDigit = true)
    (hu : u.isDigit = false) (huf : u ≠ 'f') (v : Int)
    (hunit : unitSeconds u = some v) :
    get_expiration_delta (String.mk (ds ++ u :: rest)) =
      some (digitsToNat ds * v) := by
  unfold get_expiration_delta
  rw [if_neg (mk_append_ne_0f ds u rest hne huf)]
  have hdata : (String.mk (ds ++ u :: rest)).data = ds ++ u :: rest := rfl
  rw [hdata, splitDigits_append ds u rest hds hu]
  cases ds with
  | nil => exact absurd rfl hne
  | cons c ds' => simp [hunit]

theorem delta_malformed (s : String) (h0 : s ≠ "0f")
    (hw : wellFormedToken s = false) :
    get_expiration_delta s = some 86400 := by
  unfold get_expiration_delta
  rw [if_neg h0]
  unfold wellFormedToken at hw
  cases hsd : splitDigits s.data with
  | mk ds rest =>
    rw [hsd] at hw
    cases ds with
    | nil => rfl
    | cons c ds' =>
      cases rest with
      | nil => simp
      | cons u rest' =>
        cases hun : unitSeconds u with
        | none => simp [hun]
        | some v => simp [hun] at hw

/-! ## Claim theorems -/

/-- C5 (amended): the duration parser maps the forever token `"0f"` to the
forever marker, maps every token beginning with a digit string `ds`
followed by a unit letter to `value(ds)` times {1 hour, 1 day, 1 week,
30 days, 365 days} in seconds — even when trailing characters follow the
unit letter, because `re.match` only anchors at the start — and maps every
token with no such digits-plus-unit prefix to the one-day default.  (The
original claim said every malformed token falls back to one day; a
malformed token with a well-formed prefix, such as "2hx", instead parses
by its prefix.) -/
theorem get_expiration_delta_spec_amended :
    get_expiration_delta "0f" = none ∧
    (∀ (ds rest : List Char), ds ≠ [] → (∀ c ∈ ds, c.isDigit = true) →
      get_expiration_delta (String.mk (ds ++ 'h' :: rest)) =
        some ((digitsToNat ds : Int) * 3600) ∧
      get_expiration_delta (String.mk (ds ++ 'd' :: rest)) =
        some ((digitsToNat ds : Int) * 86400) ∧
      get_expiration_delta (String.mk (ds ++ 'w' :: rest)) =
        some ((digitsToNat ds : Int) * 604800) ∧
      get_expiration_delta (String.mk (ds ++ 'm' :: rest)) =
        some ((digitsToNat ds : Int) * (30 * 86400)) ∧
      get_expiration_delta (String.mk (ds ++ 'y' :: rest)) =
        some ((digitsToNat ds : Int) * (365 * 86400))) ∧
    (∀ s : String, s ≠ "0f" → wellFormedToken s = false →
      get_expiration_delta s = some 86400) := by
  refine ⟨rfl, ?_, delta_malformed⟩
  intro ds rest hne hds
  refine ⟨?_, ?_, ?_, ?_, ?_⟩
  · exact delta_valid_prefix ds 'h' rest hne hds (by decide) (by decide)
      3600 rfl
  · exact delta_valid_prefix ds 'd' rest hne hds (by decide) (by decide)
      86400 rfl
  · exact delta_valid_prefix ds 'w' rest hne hds (by decide) (by decide)
      604800 rfl
  · exact delta_valid_prefix ds 'm' rest hne hds (by decide) (by decide)
      (30 * 86400) rfl
  · exact delta_valid_prefix ds 'y' rest hne hds (by decide) (by decide)
      (365 * 86400) rfl

/-- Witness for C5: "3d" parses to 3 days and "xx" falls back to one
day. -/
theorem get_expiration_delta_spec_amended_witness :
    get_expiration_delta (String.mk (['3'] ++ 'd' :: [])) =
      some ((digitsToNat ['3'] : Int) * 86400) ∧
    get_expiration_delta "xx" = some 86400 := by
  obtain ⟨h0, hvalid, hmal⟩ := get_expiration_delta_spec_amended
  exact ⟨(hvalid ['3'] [] (by decide) (by decide)).2.1,
         hmal "xx" (by decide) (by decide)⟩

/-- Counterexample for C5 as stated: "2hx" is not a well-formed
`<n><unit>` token, yet it parses to 2 hours (7200 s), not to the one-day
default of 86400 s. -/
theorem duration_malformed_trailing_cex :
    get_expiration_delta "2hx" = some 7200 ∧
    (some 7200 : Option Int) ≠ some 86400 := by
  constructor
  · rfl
  · decide

/-- C6 (confirmed): the sweeper only selects rows whose expiration is a
concrete instant strictly before the sweep's `now`; a row with no
expiration (forever) is never deleted, and every row a sweep cycle
deletes had an expiration strictly before `now`. -/
theorem cleanup_never_deletes_future_or_forever
    (oc : String → RemoveOutcome) (now : Int) (s : S) :
    (∀ r ∈ s.store.filter (isExpired now),
      ∃ t, r.expiration = some t ∧ t < now) ∧
    (∀ e ∈ s.store, e.expiration = none →
      e ∈ (cleanup_expired_ips oc now s).store) ∧
    (∀ e ∈ s.store, e ∉ (cleanup_expired_ips oc now s).store →
      ∃ t, e.expiration = some t ∧ t < now) := by
  refine ⟨?_, ?_, ?_⟩
  · intro r hr
    have hx := (List.mem_filter.mp hr).2
    unfold isExpired at hx
    cases h : r.expiration with
    | none => rw [h] at hx; cases hx
    | some t =>
      rw [h] at hx
      exact ⟨t, rfl, by simpa using hx⟩
  · exact fun e he hf => cleanup_keeps_forever oc now s e he hf
  · exact fun e he hd => cleanup_deleted_expired oc now s e he hd

/-- Witness for C6: in a sweep at instant 10 over `sC6`, the forever row
stays in the store, the future row (expiring at 99) stays, and indeed the
one deleted row expired at 5 < 10. -/
theorem cleanup_never_deletes_future_or_forever_witness :
    ({ email := "u", ip := "7.7.7.7", expiration := none } : Entry) ∈
      (cleanup_expired_ips ocOk 10 sC6).store ∧
    ({ email := "u", ip := "6.6.6.6", expiration := some 99 } : Entry) ∈
      (cleanup_expired_ips ocOk 10 sC6).store ∧
    (∃ t, ({ email := "u", ip := "8.8.8.8", expiration := some 5 } :
      Entry).expiration = some t ∧ t < 10) := by
  have h := cleanup_never_deletes_future_or_forever ocOk 10 sC6
  refine ⟨h.2.1 _ (by decide) rfl, ?_, h.2.2 _ (by decide) (by decide)⟩
  decide

/-- C1 (amended): every row a sweep cycle deletes from the store was
expired, and its address was selected, so `remove_ip` was called for it in
that very cycle; if the call succeeded the address is gone from the
router; if it raised, the sweeper prints an error line naming the address;
and if its PUT failure was swallowed by the client, the client logs an
error line (one that reports the exception, not the address) — so every
failure leaves a trace in the log, though in the swallowed-PUT case the
log line does not identify which address is affected.  (The original
claim also said the router removal of every purged row eventually
succeeds; the counterexample shows a purged row whose removal never
succeeds, because the batch delete that runs after an earlier address's
successful removal erases the row, so no later sweep can retry it.) -/
theorem cleanup_purge_attempted_and_observable
    (oc : String → RemoveOutcome) (now : Int) (s : S) :
    ∀ e ∈ s.store, e ∉ (cleanup_expired_ips oc now s).store →
      (∃ t, e.expiration = some t ∧ t < now) ∧
      e.ip ∈ expiredIps s.store now ∧
      (oc e.ip = RemoveOutcome.ok →
        e.ip ∉ (cleanup_expired_ips oc now s).router) ∧
      (oc e.ip = RemoveOutcome.getFail →
        sweepErrMsg e.ip ∈ (cleanup_expired_ips oc now s).log) ∧
      (oc e.ip = RemoveOutcome.putFail →
        putFailMsg ∈ (cleanup_expired_ips oc now s).log) := by
  intro e he hd
  have hexp := cleanup_deleted_expired oc now s e he hd
  have hexpb : isExpired now e = true := by
    obtain ⟨t, h1, h2⟩ := hexp
    simp [isExpired, h1, h2]
  have hmem : e.ip ∈ expiredIps s.store now :=
    expired_mem_expiredIps s now e he hexpb
  have hcl := cleanup_eq_foldl_of_mem oc now s e.ip hmem
  refine ⟨hexp, hmem, ?_, ?_, ?_⟩
  · intro ho
    rw [hcl, sweepGo_router_mem]
    rintro ⟨-, hall⟩
    exact hall e.ip hmem ho rfl
  · intro ho
    rw [hcl]
    exact sweepGo_emit_getFail oc now _ s e.ip hmem ho
  · intro ho
    rw [hcl]
    exact sweepGo_emit_putFail oc now _ s e.ip hmem ho

/-- Witness for C1's amended theorem: sweeping `sC1w` at instant 1 deletes
its single expired row, whose address was selected and, the removal having
succeeded, is gone from the router. -/
theorem cleanup_purge_attempted_and_observable_witness :
    (∃ t, ({ email := "u", ip := "9.9.9.9", expiration := some 0 } :
      Entry).expiration = some t ∧ t < 1) ∧
    "9.9.9.9" ∈ expiredIps sC1w.store 1 ∧
    (ocOk "9.9.9.9" = RemoveOutcome.ok →
      "9.9.9.9" ∉ (cleanup_expired_ips ocOk 1 sC1w).router) ∧
    (ocOk "9.9.9.9" = RemoveOutcome.getFail →
      sweepErrMsg "9.9.9.9" ∈ (cleanup_expired_ips ocOk 1 sC1w).log) ∧
    (ocOk "9.9.9.9" = RemoveOutcome.putFail →
      putFailMsg ∈ (cleanup_expired_ips ocOk 1 sC1w).log) :=
  cleanup_purge_attempted_and_observable ocOk 1 sC1w
    { email := "u", ip := "9.9.9.9", expiration := some 0 }
    (by decide) (by decide)

/-- Counterexample for C1 as stated: both rows of `sC1` are expired at
instant 1; removal of "10.0.0.1" succeeds, after which the batch delete
purges both rows, and then removal of "10.0.0.2" raises.  The purged
"10.0.0.2" is still in the router after the cycle, and remains there even
after a later sweep in which every removal would succeed, because its row
no longer exists to be selected: the removal never succeeds, eventually or
otherwise. -/
theorem cleanup_purged_row_never_removed_cex :
    (cleanup_expired_ips ocC1 1 sC1).store = [] ∧
    "10.0.0.2" ∈ (cleanup_expired_ips ocC1 1 sC1).router ∧
    sweepErrMsg "10.0.0.2" ∈ (cleanup_expired_ips ocC1 1 sC1).log ∧
    "10.0.0.2" ∈
      (cleanup_expired_ips ocOk 2 (cleanup_expired_ips ocC1 1 sC1)).router
    := by decide

/-- C2 (confirmed): over every trace of system operations from an empty
store, at most one store row exists per address, and a grant of an address
that already has a store row performs no insert and reports
`already_present` (whenever the router fetch itself does not raise — a
raising fetch fails the whole request instead). -/
theorem grant_idempotent_at_most_one_row (r0 : List String)
    (ops : List Op) :
    NoDupIps (run r0 ops).store ∧
    (∀ (o : AddOutcome) (email ip duration : String) (now : Int),
      o ≠ AddOutcome.getFail →
      (∃ e ∈ (run r0 ops).store, e.ip = ip) →
      grant o email ip duration now (run r0 ops) =
        (run r0 ops, GrantResult.already_present)) := by
  obtain ⟨hnd, hsr⟩ := run_inv r0 ops
  refine ⟨hnd, ?_⟩
  rintro o email ip duration now ho ⟨e, he, hip⟩
  have hmem : ip ∈ (run r0 ops).router := hip ▸ hsr e he
  cases o with
  | getFail => exact absurd rfl ho
  | putFail => simp [grant, add_ip, hmem]
  | ok => simp [grant, add_ip, hmem]

/-- Witness for C2: after one successful grant of "10.0.0.1", the store
has no duplicate addresses and a second grant of the same address leaves
the state unchanged and reports `already_present`. -/
theorem grant_idempotent_at_most_one_row_witness :
    NoDupIps (run [] [Op.grant AddOutcome.ok "a" "10.0.0.1" "1h" 0]).store ∧
    grant AddOutcome.ok "b" "10.0.0.1" "1d" 5
        (run [] [Op.grant AddOutcome.ok "a" "10.0.0.1" "1h" 0]) =
      (run [] [Op.grant AddOutcome.ok "a" "10.0.0.1" "1h" 0],
       GrantResult.already_present) := by
  obtain ⟨h1, h2⟩ :=
    grant_idempotent_at_most_one_row []
      [Op.grant AddOutcome.ok "a" "10.0.0.1" "1h" 0]
  refine ⟨h1, h2 AddOutcome.ok "b" "10.0.0.1" "1d" 5 (by decide) ?_⟩
  exact ⟨{ email := "a", ip := "10.0.0.1", expiration := some 3600 },
    by decide, rfl⟩

/-- C3 (amended): when the first store row matching an address is a
forever-entry (and, as the system invariant guarantees, it is the only
row for that address), every Extend leaves the stored expiration NULL;
but the operation completes normally exactly when the duration token is
the forever token "0f" — for every timed token,
`datetime.fromisoformat(None)` raises `TypeError` before any update, so
the route crashes instead of completing.  (The original claim said Extend
with ANY token completes normally.) -/
theorem extend_forever_entry_amended (s : S) (ip duration : String)
    (hall : ∀ e ∈ s.store, e.ip = ip → e.expiration = none)
    (hex : ∃ e ∈ s.store, e.ip = ip) :
    (∀ e ∈ (extend ip duration s).1.store, e.ip = ip →
      e.expiration = none) ∧
    ((extend ip duration s).2 = ExtendResult.extended ↔
      get_expiration_delta duration = none) ∧
    ((extend ip duration s).2 = ExtendResult.crashed ↔
      get_expiration_delta duration ≠ none) := by
  obtain ⟨e0, he0, hip0⟩ := hex
  have hfind : ∃ row, s.store.find? (fun e => e.ip == ip) = some row := by
    have : (s.store.find? (fun e => e.ip == ip)).isSome := by
      rw [List.find?_isSome]
      exact ⟨e0, he0, by simpa using hip0⟩
    exact Option.isSome_iff_exists.mp this
  obtain ⟨row, hf⟩ := hfind
  have hrow_mem : row ∈ s.store := List.mem_of_find?_eq_some hf
  have hrow_ip : row.ip = ip := by
    have := List.find?_some hf
    simpa using this
  have hrow_exp : row.expiration = none := hall row hrow_mem hrow_ip
  cases hd : get_expiration_delta duration with
  | none =>
    simp only [extend, hf, hd]
    refine ⟨?_, by simp, by simp⟩
    intro e he hip
    exact setExpiration_ip_val s.store ip none e he hip
  | some d =>
    simp only [extend, hf, hd, hrow_exp]
    exact ⟨hall, by simp, by simp⟩

/-- Witness for C3's amended theorem: extending the forever-entry of `sC3`
by "1h" keeps its expiration NULL and crashes rather than completing. -/
theorem extend_forever_entry_amended_witness :
    (∀ e ∈ (extend "10.0.0.3" "1h" sC3).1.store, e.ip = "10.0.0.3" →
      e.expiration = none) ∧
    ((extend "10.0.0.3" "1h" sC3).2 = ExtendResult.extended ↔
      get_expiration_delta "1h" = none) ∧
    ((extend "10.0.0.3" "1h" sC3).2 = ExtendResult.crashed ↔
      get_expiration_delta "1h" ≠ none) :=
  extend_forever_entry_amended sC3 "10.0.0.3" "1h" (by decide) (by decide)

/-- Counterexample for C3 as stated: extending the forever-entry
"10.0.0.3" with the timed token "1h" does not complete normally — the
route raises `TypeError` (`crashed`), leaving the row untouched. -/
theorem extend_forever_timed_crashes_cex :
    extend "10.0.0.3" "1h" sC3 = (sC3, ExtendResult.crashed) ∧
    ExtendResult.crashed ≠ ExtendResult.extended := by decide

/-- C4 (the claim is right, the code has a slip): a grant whose router
group fetch fails at the transport level persists nothing — the state,
store included, is returned unchanged — but the request ends in a
`NameError` crash (HTTP 500), because `add_ip` executes
`return none, False` with the undefined name `none`, so the handled
"Failed to add IP ... Please try again" branch that would tell the caller
to retry is unreachable. -/
theorem grant_transport_failure_nothing_persisted :
    grant AddOutcome.getFail "u" "10.0.0.9" "1d" 0 sC4 =
      (sC4, GrantResult.crashed) ∧
    grant AddOutcome.putFail "u" "10.0.0.9" "1d" 0 sC4 =
      (sC4, GrantResult.crashed) := by decide

/-- C7 (amended): `add_ip` surfaces every transport failure by raising
(the `NameError` in its handlers escapes), and on a normal return reports
the true post-call membership — `was_added = true` appends the absent
address, `was_added = false` leaves a present membership unchanged.
`remove_ip` surfaces a fetch failure by raising, and on success returns a
membership without the address; but it swallows a PUT failure: it logs the
error and returns normally with the membership unchanged, so a removal
that did not apply is reported like a success.  (The original claim said
both calls surface every transport failure and never report partial
success; the counterexample is the swallowed PUT failure of
`remove_ip`.) -/
theorem router_client_error_surfacing_amended :
    (∀ (r : List String) (ip : String),
      add_ip AddOutcome.getFail r ip = Except.error ()) ∧
    (∀ (r : List String) (ip : String), ip ∉ r →
      add_ip AddOutcome.putFail r ip = Except.error ()) ∧
    (∀ (r : List String) (ip : String), ip ∉ r →
      add_ip AddOutcome.ok r ip = Except.ok (r ++ [ip], true)) ∧
    (∀ (r : List String) (ip : String), ip ∈ r →
      ∀ o, o ≠ AddOutcome.getFail →
        add_ip o r ip = Except.ok (r, false)) ∧
    (∀ (r : List String) (ip : String),
      remove_ip RemoveOutcome.getFail r ip = Except.error ()) ∧
    (∀ (r : List String) (ip : String),
      remove_ip RemoveOutcome.ok r ip =
        Except.ok (r.filter (fun i => i != ip), []) ∧
      ip ∉ r.filter (fun i => i != ip)) ∧
    (∀ (r : List String) (ip : String),
      remove_ip RemoveOutcome.putFail r ip =
        Except.ok (r, [putFailMsg])) := by
  refine ⟨fun r ip => rfl, ?_, ?_, ?_, fun r ip => rfl, ?_, fun r ip => rfl⟩
  · intro r ip h
    simp [add_ip, h]
  · intro r ip h
    simp [add_ip, h]
  · intro r ip h o ho
    cases o with
    | getFail => exact absurd rfl ho
    | putFail => simp [add_ip, h]
    | ok => simp [add_ip, h]
  · intro r ip
    refine ⟨rfl, ?_⟩
    intro h
    have := (List.mem_filter.mp h).2
    simp at this

/-- Witness for C7's amended theorem at concrete inputs. -/
theorem router_client_error_surfacing_amended_witness :
    add_ip AddOutcome.getFail ["1.1.1.1"] "2.2.2.2" = Except.error () ∧
    add_ip AddOutcome.putFail ["1.1.1.1"] "2.2.2.2" = Except.error () ∧
    add_ip AddOutcome.ok ["1.1.1.1"] "1.1.1.1" =
      Except.ok (["1.1.1.1"], false) := by
  obtain ⟨h1, h2, h3, h4, h5, h6, h7⟩ := router_client_error_surfacing_amended
  exact ⟨h1 ["1.1.1.1"] "2.2.2.2",
         h2 ["1.1.1.1"] "2.2.2.2" (by decide),
         h4 ["1.1.1.1"] "1.1.1.1" (by decide) AddOutcome.ok (by decide)⟩

/-- Counterexample for C7 as stated: when the PUT inside `remove_ip`
fails at the transport level, the call returns normally (no exception)
with the membership still containing the address — the failure is
swallowed and a non-applied removal is reported like a success. -/
theorem remove_ip_swallows_put_failure_cex :
    remove_ip RemoveOutcome.putFail ["1.2.3.4"] "1.2.3.4" =
      Except.ok (["1.2.3.4"], [putFailMsg]) ∧
    "1.2.3.4" ∈ ["1.2.3.4"] :=
  ⟨rfl, by decide⟩

/-- C8 (amended): revoke always reports `revoked` on a validated form —
`not_found` is never produced; when no store row matches the address the
store (and the whole state) is left unchanged, yet the result is still
`revoked`.  (The original claim said a revoke matching no row reports
`not_found`.) -/
theorem revoke_behavior_amended (s : S) (ip : String) :
    (revoke ip s).2 = RevokeResult.revoked ∧
    ((¬ ∃ e ∈ s.store, e.ip = ip) →
      revoke ip s = (s, RevokeResult.revoked)) := by
  refine ⟨rfl, ?_⟩
  intro h
  unfold revoke
  have hfe : s.store.filter (fun e => e.ip != ip) = s.store := by
    apply List.filter_eq_self.mpr
    intro e he
    have : ¬ e.ip = ip := fun hip => h ⟨e, he, hip⟩
    simpa using this
  rw [hfe]

/-- Witness for C8's amended theorem: revoking "10.0.0.1" against a store
holding only "10.9.9.9" reports `revoked` and changes nothing. -/
theorem revoke_behavior_amended_witness :
    (revoke "10.0.0.1" sC8w).2 = RevokeResult.revoked ∧
    revoke "10.0.0.1" sC8w = (sC8w, RevokeResult.revoked) := by
  obtain ⟨h1, h2⟩ := revoke_behavior_amended sC8w "10.0.0.1"
  exact ⟨h1, h2 (by decide)⟩

/-- Counterexample for C8 as stated: revoking "10.0.0.1", which has no
row in `sC8`, leaves the store unchanged but reports `revoked`, not the
claimed `not_found`. -/
theorem revoke_missing_row_reports_revoked_cex :
    revoke "10.0.0.1" sC8 = (sC8, RevokeResult.revoked) ∧
    RevokeResult.revoked ≠ RevokeResult.not_found := by decide

/-- C9 (amended): a failed router login does not crash the caller and
corrupts no token state — the stored `csrf_token` and `token_expiry` are
returned exactly as they were, and only a successful login replaces them —
but no unauthenticated/retryable error is surfaced either: `login`
catches the `RequestException`, logs it, and returns normally, so
`ensure_authenticated` with a failing login always completes as if
authentication had succeeded, and the caller proceeds with the stale
state.  (The original claim said the failure surfaces as an
unauthenticated error to the caller.) -/
theorem login_failure_preserves_state_amended :
    (∀ (st : ClientState) (c : String) (x : Int),
      login true c x st = Except.ok st) ∧
    (∀ (st : ClientState) (c : String) (x : Int),
      login false c x st =
        Except.ok { csrf_token := some c, token_expiry := some x }) ∧
    (∀ (st : ClientState) (c : String) (x now : Int),
      ensure_authenticated true c x now st = Except.ok st) := by
  refine ⟨fun st c x => rfl, fun st c x => rfl, ?_⟩
  intro st c x now
  unfold ensure_authenticated
  cases h : st.token_expiry with
  | none => rfl
  | some exp =>
    by_cases hlt : exp - 30 < now <;> simp [login, hlt]

/-- Counterexample for C9 as stated: a failed login returns `Except.ok`
with the old token state — it raises nothing and returns no error value,
so no "unauthenticated" error reaches the caller. -/
theorem login_failure_not_surfaced_cex :
    login true "newtoken" 100 stC9 = Except.ok stC9 ∧
    stC9.csrf_token = some "oldtoken" ∧
    stC9.token_expiry = some 50 :=
  ⟨rfl, rfl, rfl⟩

/-- C10 (confirmed): for a store whose first row matching an address is a
timed entry, Extend with the forever token "0f" completes normally and
sets the stored expiration of every row of that address to NULL, and such
a forever row is never purged by any later sweep cycle. -/
theorem extend_forever_token_clears_expiration (s : S) (ip : String)
    (row : Entry) (t : Int)
    (hf : s.store.find? (fun e => e.ip == ip) = some row)
    (ht : row.expiration = some t) :
    (extend ip "0f" s).2 = ExtendResult.extended ∧
    (∀ e ∈ (extend ip "0f" s).1.store, e.ip = ip →
      e.expiration = none) ∧
    (∀ (oc : String → RemoveOutcome) (now : Int),
      ∀ e ∈ (extend ip "0f" s).1.store, e.ip = ip →
        e ∈ (cleanup_expired_ips oc now (extend ip "0f" s).1).store) := by
  have hd : get_expiration_delta "0f" = none := rfl
  refine ⟨?_, ?_, ?_⟩
  · simp only [extend, hf, hd]
  · intro e he hip
    simp only [extend, hf, hd] at he
    exact setExpiration_ip_val s.store ip none e he hip
  · intro oc now e he hip
    simp only [extend, hf, hd] at he ⊢
    exact cleanup_keeps_forever oc now _ e he
      (setExpiration_ip_val s.store ip none e he hip)

/-- Witness for C10: converting the timed entry of `sC10` (expiring at
77) with "0f" yields a NULL expiration that survives a sweep at instant
1000. -/
theorem extend_forever_token_clears_expiration_witness :
    (extend "10.0.0.5" "0f" sC10).2 = ExtendResult.extended ∧
    (∀ e ∈ (extend "10.0.0.5" "0f" sC10).1.store, e.ip = "10.0.0.5" →
      e.expiration = none) ∧
    (∀ (oc : String → RemoveOutcome) (now : Int),
      ∀ e ∈ (extend "10.0.0.5" "0f" sC10).1.store, e.ip = "10.0.0.5" →
        e ∈ (cleanup_expired_ips oc now
          (extend "10.0.0.5" "0f" sC10).1).store) :=
  extend_forever_token_clears_expiration sC10 "10.0.0.5"
    { email := "u", ip := "10.0.0.5", expiration := some 77 } 77
    (by decide) rfl
